import Mathlib

/-!
Verification of the SpeedTest repository core: the Result Record
(`src/core/units.py`), the History Store (`src/core/history.py`), the Gauge
Sample Buffer (`src/ui/gauges.py`), the Measurement Engine
(`src/core/speedtest_engine.py`) and the Dashboard state machine
(`src/ui/cli_dashboard.py`).

Modelling conventions:
* Python floats are modelled as `ℚ`: none of the verified properties depend
  on IEEE rounding, only on field passthrough, comparisons, max, and exact
  division.
* Python dicts (as produced by `json.loads` / consumed by `SpeedResult.from_dict`)
  are modelled as association lists `Dict := List (String × PyVal)`; `dict.get`
  is `List.lookup`.
* `datetime` is an external collaborator.  `isoformat`/`fromisoformat` form an
  encode/parse pair on timestamps; a timestamp is modelled as a `ℕ` and the
  ISO-8601 string it serialises to as its decimal digit list
  (`Nat.digits 10` / `Nat.ofDigits 10`), which preserves exactly the property
  the code relies on: parsing the serialised form recovers the timestamp.
* A value of unexpected runtime type in a slot the Python code feeds into a
  typed field is modelled as a type error (`Except.error`), since the typed
  record cannot hold it; the verified claims only exercise well-typed slots.
-/

/-- A Python/JSON value as it appears in the dicts handled by the program.
`isoStr` is an ISO-8601 timestamp string, modelled by the digit list of the
timestamp it denotes (see the header comment). -/
inductive PyVal where
  | num (q : ℚ)
  | str (s : String)
  | isoStr (digits : List ℕ)
  | pyNone
  | list (items : List PyVal)
  | dict (entries : List (String × PyVal))

/-- A Python dict with string keys, as an association list. -/
abbrev Dict := List (String × PyVal)

/-- `SpeedResult` from `src/core/units.py`: one completed measurement.
`timestamp` models the `datetime` field (see header). -/
structure SpeedResult where
  ping_ms : ℚ
  jitter_ms : Option ℚ
  download_mbps : ℚ
  upload_mbps : ℚ
  packet_loss : Option ℚ
  server_name : Option String
  isp : Option String
  timestamp : ℕ
deriving DecidableEq, Repr

/-- Encoding of an optional float field value (`None` → JSON null). -/
def optNum : Option ℚ → PyVal
  | none => .pyNone
  | some q => .num q

/-- Encoding of an optional string field value (`None` → JSON null). -/
def optStr : Option String → PyVal
  | none => .pyNone
  | some s => .str s

/-- `SpeedResult.to_dict` from `src/core/units.py` lines 28-38: all eight
fields, with the timestamp serialised via `isoformat`. -/
def SpeedResult.to_dict (r : SpeedResult) : Dict :=
  [("ping_ms", .num r.ping_ms),
   ("jitter_ms", optNum r.jitter_ms),
   ("download_mbps", .num r.download_mbps),
   ("upload_mbps", .num r.upload_mbps),
   ("packet_loss", optNum r.packet_loss),
   ("server_name", optStr r.server_name),
   ("isp", optStr r.isp),
   ("timestamp", .isoStr (Nat.digits 10 r.timestamp))]

/-- `data.get(key, default)` for a float slot.  A missing key yields the
default; a non-numeric value is a model-level type error (header comment). -/
def getNumD (d : Dict) (k : String) (dflt : ℚ) : Except String ℚ :=
  match d.lookup k with
  | none => .ok dflt
  | some (.num q) => .ok q
  | some _ => .error "TypeError"

/-- `data.get(key)` for an optional float slot (missing key or `None` → `None`). -/
def getOptNum (d : Dict) (k : String) : Except String (Option ℚ) :=
  match d.lookup k with
  | none => .ok none
  | some .pyNone => .ok none
  | some (.num q) => .ok (some q)
  | some _ => .error "TypeError"

/-- `data.get(key)` for an optional string slot (missing key or `None` → `None`). -/
def getOptStr (d : Dict) (k : String) : Except String (Option String) :=
  match d.lookup k with
  | none => .ok none
  | some .pyNone => .ok none
  | some (.str s) => .ok (some s)
  | some _ => .error "TypeError"

/-- `SpeedResult.from_dict` from `src/core/units.py` lines 40-51.  All fields
but the timestamp fall back to defaults via `.get`; `data["timestamp"]` raises
`KeyError` when absent, and `datetime.fromisoformat` parses the ISO string. -/
def SpeedResult.from_dict (data : Dict) : Except String SpeedResult := do
  let ping ← getNumD data "ping_ms" 0
  let jitter ← getOptNum data "jitter_ms"
  let dl ← getNumD data "download_mbps" 0
  let ul ← getNumD data "upload_mbps" 0
  let loss ← getOptNum data "packet_loss"
  let server ← getOptStr data "server_name"
  let isp ← getOptStr data "isp"
  let ts ← match data.lookup "timestamp" with
    | none => .error "KeyError"
    | some (.isoStr ds) => .ok (Nat.ofDigits 10 ds)
    | some _ => .error "ValueError"
  .ok { ping_ms := ping, jitter_ms := jitter, download_mbps := dl,
        upload_mbps := ul, packet_loss := loss, server_name := server,
        isp := isp, timestamp := ts }

/-- `HISTORY_LIMIT` from `src/core/history.py` line 11. -/
def HISTORY_LIMIT : ℕ := 10

/-- The parsing step of `load_history`: the list comprehension
`[SpeedResult.from_dict(item) for item in data]`.  Iterating a non-list or
feeding a non-dict into `from_dict` raises, which the caller's `except`
absorbs. -/
def parseList : List PyVal → Except String (List SpeedResult)
  | [] => .ok []
  | it :: rest =>
    match it with
    | .dict d =>
      match SpeedResult.from_dict d, parseList rest with
      | .ok r, .ok rs => .ok (r :: rs)
      | .error e, _ => .error e
      | _, .error e => .error e
    | _ => .error "AttributeError"

def parseRecords (v : PyVal) : Except String (List SpeedResult) :=
  match v with
  | .list items => parseList items
  | _ => .error "TypeError"

/-- The history file's state: `none` = file missing, `some none` = text that
`json.loads` rejects, `some (some v)` = text parsing to the JSON value `v`. -/
abbrev HistFile := Option (Option PyVal)

/-- `load_history` from `src/core/history.py` lines 14-21: missing file → `[]`;
any exception while parsing → `[]`; otherwise the parsed records trimmed to the
last `HISTORY_LIMIT` (the Python slice `[-HISTORY_LIMIT:]`). -/
def load_history (file : HistFile) : List SpeedResult :=
  match file with
  | none => []
  | some none => []
  | some (some v) =>
    match parseRecords v with
    | .ok rs => rs.drop (rs.length - HISTORY_LIMIT)
    | .error _ => []

/-- `save_result` from `src/core/history.py` lines 24-29: load, append, trim to
the last `HISTORY_LIMIT`, serialise, whole-file replace. -/
def save_result (result : SpeedResult) (file : HistFile) : HistFile :=
  let history := load_history file ++ [result]
  let trimmed := history.drop (history.length - HISTORY_LIMIT)
  some (some (.list (trimmed.map fun entry => .dict entry.to_dict)))

lemma from_dict_to_dict (r : SpeedResult) :
    SpeedResult.from_dict r.to_dict = .ok r := by
  obtain ⟨p, j, dl, ul, pl, sv, ip, ts⟩ := r
  cases j <;> cases pl <;> cases sv <;> cases ip <;>
    simp [SpeedResult.to_dict, SpeedResult.from_dict, getNumD, getOptNum,
      getOptStr, optNum, optStr, List.lookup, Nat.ofDigits_digits, bind,
      Except.bind]

lemma parseRecords_serialised (l : List SpeedResult) :
    parseRecords (.list (l.map fun entry => .dict entry.to_dict)) = .ok l := by
  simp only [parseRecords]
  induction l with
  | nil => rfl
  | cons r rs ih =>
    simp only [List.map_cons, parseList, from_dict_to_dict, ih]

lemma load_history_length_le (file : HistFile) :
    (load_history file).length ≤ HISTORY_LIMIT := by
  match file with
  | none => simp [load_history]
  | some none => simp [load_history]
  | some (some v) =>
    simp only [load_history]
    match parseRecords v with
    | .ok rs => simp [List.length_drop]; omega
    | .error _ => simp

lemma load_serialised (t : List SpeedResult) (h : t.length ≤ HISTORY_LIMIT) :
    load_history (some (some (.list (t.map fun e => .dict e.to_dict)))) = t := by
  simp only [load_history, parseRecords_serialised]
  have h0 : t.length - HISTORY_LIMIT = 0 := by omega
  rw [h0, List.drop_zero]

lemma load_save (r : SpeedResult) (file : HistFile) :
    load_history (save_result r file)
      = (load_history file ++ [r]).drop
          ((load_history file ++ [r]).length - HISTORY_LIMIT) := by
  apply load_serialised
  simp only [List.length_drop]
  omega

lemma load_foldl_save (rs : List SpeedResult) (file : HistFile) :
    load_history (rs.foldl (fun f r => save_result r f) file)
      = (load_history file ++ rs).drop
          ((load_history file ++ rs).length - HISTORY_LIMIT) := by
  induction rs generalizing file with
  | nil =>
    simp only [List.foldl_nil, List.append_nil]
    have h := load_history_length_le file
    have h0 : (load_history file).length - HISTORY_LIMIT = 0 := by omega
    rw [h0, List.drop_zero]
  | cons r rs ih =>
    simp only [List.foldl_cons]
    rw [ih (save_result r file), load_save]
    rw [show load_history file ++ r :: rs = (load_history file ++ [r]) ++ rs by
      simp]
    rw [← List.drop_append_of_le_length (by omega), List.drop_drop]
    congr 1
    simp only [List.length_drop, List.length_append]
    omega

/-- C2.  For every Result Record `r`, including records with absent optional
fields, deserialising its serialised form recovers `r` on all eight fields:
`from_dict(to_dict(r)) = r`. -/
theorem result_record_roundtrip (r : SpeedResult) :
    SpeedResult.from_dict r.to_dict = .ok r :=
  from_dict_to_dict r

/-- C3.  Folding `save_result` over any sequence of records starting from an
empty History Store (missing file) persists exactly the last `HISTORY_LIMIT`
(= 10) records, oldest first (for 15 records, `drop 5` = the last ten); and
each individual append trims the persisted list to the last ten of
`old ++ [r]`, evicting the oldest entries first. -/
theorem history_append_trims_fifo :
    (∀ rs : List SpeedResult,
        load_history (rs.foldl (fun f r => save_result r f) none)
          = rs.drop (rs.length - HISTORY_LIMIT))
    ∧ (∀ (r : SpeedResult) (file : HistFile),
        (load_history (save_result r file)).length ≤ HISTORY_LIMIT
        ∧ load_history (save_result r file)
            = (load_history file ++ [r]).drop
                ((load_history file ++ [r]).length - HISTORY_LIMIT)) := by
  refine ⟨fun rs => ?_, fun r file => ⟨?_, load_save r file⟩⟩
  · have h := load_foldl_save rs none
    simpa [load_history] using h
  · rw [load_save]
    simp only [List.length_drop]
    omega

/-- C4.  Loading the History Store degrades to the empty list and never raises:
a missing file, a file whose text `json.loads` rejects, and a parse result that
is not a list of valid serialised records all yield `[]`. -/
theorem load_history_degrades_to_empty :
    load_history none = []
    ∧ load_history (some none) = []
    ∧ ∀ v : PyVal, (∃ msg, parseRecords v = .error msg)
        → load_history (some (some v)) = [] := by
  refine ⟨rfl, rfl, fun v ⟨msg, hv⟩ => ?_⟩
  simp [load_history, hv]

/-- Witness for C4 at a concrete malformed file content (a bare number, which
the record-list comprehension rejects). -/
theorem load_history_degrades_to_empty_witness :
    parseRecords (.num 3) = .error "TypeError"
    ∧ load_history (some (some (.num 3))) = [] :=
  ⟨rfl, load_history_degrades_to_empty.2.2 (.num 3) ⟨"TypeError", rfl⟩⟩

/-- C10.  Deserialising a Result Record succeeds with defaults when every field
other than the timestamp is absent (`ping_ms`, `download_mbps`, `upload_mbps`
default to 0, the optionals to absent), but fails with an error whenever the
`"timestamp"` key is missing. -/
theorem from_dict_defaults_and_timestamp_required :
    (∀ ds : List ℕ,
        SpeedResult.from_dict [("timestamp", .isoStr ds)]
          = .ok { ping_ms := 0, jitter_ms := none, download_mbps := 0,
                  upload_mbps := 0, packet_loss := none, server_name := none,
                  isp := none, timestamp := Nat.ofDigits 10 ds })
    ∧ (∀ d : Dict, d.lookup "timestamp" = none
        → ∃ msg, SpeedResult.from_dict d = .error msg) := by
  constructor
  · intro ds
    simp [SpeedResult.from_dict, getNumD, getOptNum, getOptStr, List.lookup,
      bind, Except.bind]
  · intro d hd
    simp only [SpeedResult.from_dict, hd, bind, Except.bind]
    rcases h1 : getNumD d "ping_ms" 0 with e | q1
    · exact ⟨e, rfl⟩
    rcases h2 : getOptNum d "jitter_ms" with e | q2
    · exact ⟨e, rfl⟩
    rcases h3 : getNumD d "download_mbps" 0 with e | q3
    · exact ⟨e, rfl⟩
    rcases h4 : getNumD d "upload_mbps" 0 with e | q4
    · exact ⟨e, rfl⟩
    rcases h5 : getOptNum d "packet_loss" with e | q5
    · exact ⟨e, rfl⟩
    rcases h6 : getOptStr d "server_name" with e | q6
    · exact ⟨e, rfl⟩
    rcases h7 : getOptStr d "isp" with e | q7
    · exact ⟨e, rfl⟩
    exact ⟨"KeyError", rfl⟩

/-- Witness for C10 at a concrete dict lacking the timestamp key. -/
theorem from_dict_timestamp_required_witness :
    ([("ping_ms", PyVal.num 1)] : Dict).lookup "timestamp" = none
    ∧ ∃ msg, SpeedResult.from_dict [("ping_ms", PyVal.num 1)] = .error msg :=
  ⟨rfl, from_dict_defaults_and_timestamp_required.2 [("ping_ms", .num 1)] rfl⟩

/-- The eight sparkline glyphs `blocks = "▁▂▃▄▅▆▇█"` from
`AnalyzerBars.render` in `src/ui/gauges.py`. -/
def blocks : List Char := ['▁', '▂', '▃', '▄', '▅', '▆', '▇', '█']

/-- Python `int()` truncation toward zero, on a rational. -/
def pyInt (q : ℚ) : ℤ := if 0 ≤ q then ⌊q⌋ else ⌈q⌉

/-- Python list indexing `l[i]`: a negative index counts from the end; an
out-of-range index raises `IndexError`, modelled as `none`. -/
def pyGet (l : List Char) (i : ℤ) : Option Char :=
  let j := if i < 0 then i + l.length else i
  if 0 ≤ j then l[j.toNat]? else none

/-- The glyph-lookup comprehension `"".join(blocks[idx] for idx in normalized)`,
propagating a possible `IndexError`. -/
def pyGetAll (l : List Char) : List ℤ → Option (List Char)
  | [] => some []
  | i :: rest =>
    match pyGet l i, pyGetAll l rest with
    | some c, some cs => some (c :: cs)
    | _, _ => none

/-- `AnalyzerBars` from `src/ui/gauges.py` lines 49-57: a capacity and the
sample list. -/
structure AnalyzerBars where
  capacity : ℕ
  samples : List ℚ

/-- `AnalyzerBars.__init__` (default capacity 40; the Dashboard passes 50). -/
def AnalyzerBars.init (capacity : ℕ := 40) : AnalyzerBars := ⟨capacity, []⟩

/-- `AnalyzerBars.push`: append the sample, then pop the oldest one when over
capacity. -/
def AnalyzerBars.push (b : AnalyzerBars) (value : ℚ) : AnalyzerBars :=
  let s := b.samples ++ [value]
  { b with samples := if b.capacity < s.length then s.drop 1 else s }

/-- `max(self.samples) or 1` from `AnalyzerBars.render` line 64: the maximum of
the (non-empty) sample list, a zero maximum replaced by 1 via Python `or`.
The `[]` case is unreachable from `render`, which guards on emptiness. -/
def maxSample : List ℚ → ℚ
  | [] => 1
  | v :: vs => if vs.foldl max v = 0 then 1 else vs.foldl max v

/-- `AnalyzerBars.render` lines 59-67.  The empty-buffer branch draws
`capacity` glyphs randomly from the two lowest glyphs
(`random.choice(blocks[:2])`), modelled by the choice stream `rng`; the
non-empty branch normalises each sample against `maxSample`, quantises into
the eight glyphs (`7 = len(blocks) - 1`, capped by `min`), and left-pads the
spark with `blocks[0] = '▁'` to the configured capacity (`str.rjust`, which
never truncates). -/
def AnalyzerBars.render (b : AnalyzerBars) (rng : ℕ → Fin 2) :
    Option (List Char) :=
  match b.samples with
  | [] =>
    some ((List.range b.capacity).map fun i => (blocks.take 2).getD (rng i).1 '▁')
  | v :: vs =>
    let m := maxSample (v :: vs)
    let normalized := (v :: vs).map fun val => min (pyInt (val / m * 7)) 7
    (pyGetAll blocks normalized).map fun spark =>
      List.replicate (b.capacity - spark.length) '▁' ++ spark

lemma push_capacity (b : AnalyzerBars) (v : ℚ) :
    (b.push v).capacity = b.capacity := rfl

lemma foldl_push_capacity (vals : List ℚ) (b : AnalyzerBars) :
    (vals.foldl AnalyzerBars.push b).capacity = b.capacity := by
  induction vals generalizing b with
  | nil => rfl
  | cons v vs ih => simp only [List.foldl_cons]; rw [ih, push_capacity]

lemma push_samples_length (b : AnalyzerBars) (v : ℚ)
    (h : b.samples.length ≤ b.capacity) :
    (b.push v).samples.length ≤ b.capacity := by
  simp only [AnalyzerBars.push]
  split
  · next hc =>
    simp only [List.length_append, List.length_cons, List.length_nil] at hc
    simp only [List.length_drop, List.length_append, List.length_cons,
      List.length_nil]
    omega
  · next hc =>
    simp only [List.length_append, List.length_cons, List.length_nil, not_lt] at hc
    simp only [List.length_append, List.length_cons, List.length_nil]
    omega

lemma foldl_push_samples_length (vals : List ℚ) (b : AnalyzerBars)
    (h : b.samples.length ≤ b.capacity) :
    (vals.foldl AnalyzerBars.push b).samples.length ≤ b.capacity := by
  induction vals generalizing b with
  | nil => simpa using h
  | cons v vs ih =>
    simp only [List.foldl_cons]
    have := ih (b.push v) (push_samples_length b v h)
    rwa [push_capacity] at this

lemma mem_push_samples {x : ℚ} (b : AnalyzerBars) (v : ℚ)
    (h : x ∈ (b.push v).samples) : x ∈ b.samples ∨ x = v := by
  simp only [AnalyzerBars.push] at h
  split at h
  · have := List.mem_of_mem_drop h
    simpa using this
  · simpa using h

lemma mem_foldl_push_samples {x : ℚ} (vals : List ℚ) (b : AnalyzerBars)
    (h : x ∈ (vals.foldl AnalyzerBars.push b).samples) :
    x ∈ b.samples ∨ x ∈ vals := by
  induction vals generalizing b with
  | nil => exact Or.inl (by simpa using h)
  | cons v vs ih =>
    rcases ih (b.push v) (by simpa using h) with h' | h'
    · rcases mem_push_samples b v h' with h'' | h''
      · exact Or.inl h''
      · exact Or.inr (by simp [h''])
    · exact Or.inr (by simp [h'])

lemma push_samples_eq_nil {b : AnalyzerBars} {v : ℚ}
    (h : (b.push v).samples = []) : b.capacity = 0 := by
  simp only [AnalyzerBars.push] at h
  split at h
  · next hc =>
    have hl := congrArg List.length h
    simp only [List.length_drop, List.length_append, List.length_cons,
      List.length_nil] at hl
    simp only [List.length_append, List.length_cons, List.length_nil] at hc
    omega
  · exact absurd h (by simp)

lemma foldl_push_samples_ne_nil (vals : List ℚ) (b : AnalyzerBars)
    (hv : vals ≠ []) (hc : b.capacity ≠ 0) :
    (vals.foldl AnalyzerBars.push b).samples ≠ [] := by
  induction vals generalizing b with
  | nil => exact absurd rfl hv
  | cons v vs ih =>
    simp only [List.foldl_cons]
    rcases eq_or_ne vs [] with hvs | hvs
    · subst hvs
      simp only [List.foldl_nil]
      intro h
      exact hc (push_samples_eq_nil h)
    · exact ih (b.push v) hvs (by rw [push_capacity]; exact hc)

lemma le_foldl_max (v : ℚ) (vs : List ℚ) : v ≤ vs.foldl max v := by
  induction vs generalizing v with
  | nil => simp
  | cons w ws ih => exact le_trans (le_max_left v w) (ih (max v w))

lemma maxSample_pos (v : ℚ) (vs : List ℚ) (h : 0 ≤ v) :
    0 < maxSample (v :: vs) := by
  simp only [maxSample]
  split
  · norm_num
  · next hne => exact lt_of_le_of_ne (le_trans h (le_foldl_max v vs)) (Ne.symm hne)

lemma pyGet_blocks_of_range {i : ℤ} (h0 : 0 ≤ i) (h7 : i ≤ 7) :
    ∃ c, pyGet blocks i = some c := by
  have h8 : blocks.length = 8 := rfl
  have hlt : i.toNat < blocks.length := by omega
  refine ⟨blocks[i.toNat], ?_⟩
  simp only [pyGet]
  rw [if_neg (not_lt.mpr h0), if_pos h0]
  exact List.getElem?_eq_getElem hlt

lemma pyGetAll_of_forall (l : List Char) (idxs : List ℤ)
    (h : ∀ i ∈ idxs, ∃ c, pyGet l i = some c) :
    ∃ cs, pyGetAll l idxs = some cs ∧ cs.length = idxs.length := by
  induction idxs with
  | nil => exact ⟨[], rfl, rfl⟩
  | cons i rest ih =>
    obtain ⟨c, hc⟩ := h i (by simp)
    obtain ⟨cs, hcs, hlen⟩ := ih fun j hj => h j (by simp [hj])
    exact ⟨c :: cs, by simp [pyGetAll, hc, hcs], by simp [hlen]⟩

/-- C5.  For every capacity, every sequence of non-negative pushes (the sample
domain of §3: speed samples are non-negative) and every random-filler stream,
the rendered glyph sequence has length exactly the configured capacity. -/
theorem analyzer_render_length (capacity : ℕ) (vals : List ℚ) (rng : ℕ → Fin 2)
    (h : ∀ v ∈ vals, 0 ≤ v) :
    ((vals.foldl AnalyzerBars.push (AnalyzerBars.init capacity)).render rng).map
      List.length = some capacity := by
  have hcap : (vals.foldl AnalyzerBars.push (AnalyzerBars.init capacity)).capacity
      = capacity := foldl_push_capacity vals _
  have hlen : (vals.foldl AnalyzerBars.push (AnalyzerBars.init capacity)).samples.length
      ≤ capacity :=
    foldl_push_samples_length vals (AnalyzerBars.init capacity) (by simp [AnalyzerBars.init])
  have hmem : ∀ x ∈ (vals.foldl AnalyzerBars.push (AnalyzerBars.init capacity)).samples,
      0 ≤ x := by
    intro x hx
    rcases mem_foldl_push_samples vals _ hx with h' | h'
    · simp [AnalyzerBars.init] at h'
    · exact h x h'
  cases hs : (vals.foldl AnalyzerBars.push (AnalyzerBars.init capacity)).samples with
  | nil => simp [AnalyzerBars.render, hs, hcap]
  | cons v vs =>
    have hv0 : 0 ≤ v := hmem v (by rw [hs]; simp)
    have hmax : 0 < maxSample (v :: vs) := maxSample_pos v vs hv0
    have hbounds : ∀ i ∈ (v :: vs).map
        (fun val => min (pyInt (val / maxSample (v :: vs) * 7)) 7),
        ∃ c, pyGet blocks i = some c := by
      intro i hi
      simp only [List.mem_map] at hi
      obtain ⟨val, hval, rfl⟩ := hi
      have hval0 : 0 ≤ val := hmem val (by rw [hs]; exact hval)
      have hq : (0 : ℚ) ≤ val / maxSample (v :: vs) * 7 := by positivity
      refine pyGet_blocks_of_range ?_ (min_le_right _ _)
      refine le_min ?_ (by norm_num)
      simp only [pyInt, if_pos hq]
      exact Int.floor_nonneg.mpr hq
    obtain ⟨cs, hcs, hcslen⟩ := pyGetAll_of_forall blocks
      ((v :: vs).map fun val => min (pyInt (val / maxSample (v :: vs) * 7)) 7)
      hbounds
    rw [hs] at hlen
    simp only [List.length_cons] at hlen
    simp only [AnalyzerBars.render, hs, hcs, hcap, Option.map_some',
      Option.some.injEq, List.length_append, List.length_replicate, hcslen,
      List.length_map, List.length_cons]
    omega

/-- Witness for C5 at capacity 3, pushes `[5, 0]` and the constant filler
stream. -/
theorem analyzer_render_length_witness :
    (∀ v ∈ ([5, 0] : List ℚ), 0 ≤ v)
    ∧ ((([5, 0] : List ℚ).foldl AnalyzerBars.push (AnalyzerBars.init 3)).render
        fun _ => 0).map List.length = some 3 :=
  ⟨by decide, analyzer_render_length 3 [5, 0] (fun _ => 0) (by decide)⟩

lemma foldl_max_of_all_zero (v : ℚ) (vs : List ℚ) (hv : v = 0)
    (h : ∀ x ∈ vs, x = 0) : vs.foldl max v = 0 := by
  induction vs generalizing v with
  | nil => simpa using hv
  | cons w ws ih =>
    simp only [List.foldl_cons]
    have hw : w = 0 := h w (by simp)
    exact ih (max v w) (by simp [hv, hw]) fun x hx => h x (by simp [hx])

lemma pyGetAll_blocks_zeros (idxs : List ℤ) (h : ∀ i ∈ idxs, i = 0) :
    pyGetAll blocks idxs = some (List.replicate idxs.length '▁') := by
  induction idxs with
  | nil => rfl
  | cons i rest ih =>
    have hi : i = 0 := h i (by simp)
    subst hi
    rw [List.length_cons, List.replicate_succ]
    simp only [pyGetAll, ih fun j hj => h j (by simp [hj])]
    rfl

/-- C6.  The render normalisation never divides by zero: the divisor
`maxSample` is non-zero for every sample list (an all-zero buffer is treated
as having maximum 1), and folding any non-empty all-zero push sequence renders
the lowest-intensity glyph at every position. -/
theorem analyzer_no_division_by_zero :
    (∀ l : List ℚ, maxSample l ≠ 0)
    ∧ ∀ (capacity : ℕ) (vals : List ℚ) (rng : ℕ → Fin 2), vals ≠ [] →
        (∀ v ∈ vals, v = 0) →
        (vals.foldl AnalyzerBars.push (AnalyzerBars.init capacity)).render rng
          = some (List.replicate capacity '▁') := by
  constructor
  · intro l
    match l with
    | [] => norm_num [maxSample]
    | v :: vs =>
      simp only [maxSample]
      split
      · norm_num
      · next hne => exact hne
  · intro capacity vals rng hne hzero
    have hcap : (vals.foldl AnalyzerBars.push (AnalyzerBars.init capacity)).capacity
        = capacity := foldl_push_capacity vals _
    have hlen : (vals.foldl AnalyzerBars.push (AnalyzerBars.init capacity)).samples.length
        ≤ capacity :=
      foldl_push_samples_length vals (AnalyzerBars.init capacity)
        (by simp [AnalyzerBars.init])
    have hmem : ∀ x ∈ (vals.foldl AnalyzerBars.push (AnalyzerBars.init capacity)).samples,
        x = 0 := by
      intro x hx
      rcases mem_foldl_push_samples vals _ hx with h' | h'
      · simp [AnalyzerBars.init] at h'
      · exact hzero x h'
    cases hs : (vals.foldl AnalyzerBars.push (AnalyzerBars.init capacity)).samples with
    | nil =>
      have hc0 : capacity = 0 := by
        by_contra hc
        exact foldl_push_samples_ne_nil vals (AnalyzerBars.init capacity) hne
          (by simpa [AnalyzerBars.init] using hc) hs
      subst hc0
      simp [AnalyzerBars.render, hs, hcap]
    | cons v vs =>
      have hidx : ∀ i ∈ (v :: vs).map
          (fun val => min (pyInt (val / maxSample (v :: vs) * 7)) 7), i = 0 := by
        intro i hi
        simp only [List.mem_map] at hi
        obtain ⟨val, hval, rfl⟩ := hi
        have : val = 0 := hmem val (by rw [hs]; exact hval)
        simp [this, pyInt]
      rw [hs] at hlen
      simp only [List.length_cons] at hlen
      simp only [AnalyzerBars.render, hs, hcap, pyGetAll_blocks_zeros _ hidx,
        Option.map_some', List.length_map, List.length_cons,
        List.length_replicate, Option.some.injEq]
      rw [← List.replicate_add]
      congr 1
      omega

/-- Witness for C6 at capacity 3, all-zero pushes `[0, 0]` and a non-trivial
filler stream. -/
theorem analyzer_no_division_by_zero_witness :
    ([0, 0] : List ℚ) ≠ []
    ∧ (∀ v ∈ ([0, 0] : List ℚ), v = 0)
    ∧ (([0, 0] : List ℚ).foldl AnalyzerBars.push (AnalyzerBars.init 3)).render
        (fun _ => 1) = some (List.replicate 3 '▁') :=
  ⟨by decide, by decide,
   analyzer_no_division_by_zero.2 3 [0, 0] (fun _ => 1) (by decide) (by decide)⟩

/-- Python `filter(None, ...)` over the optional strings fed to the
location join: keeps values that are present and truthy (non-empty). -/
def pyFilterTruthy (l : List (Option String)) : List String :=
  l.filterMap fun o =>
    match o with
    | some s => if s = "" then none else some s
    | none => none

/-- Python `str.strip()`: remove leading and trailing whitespace. -/
def pyStrip (s : String) : String :=
  ⟨((s.data.dropWhile Char.isWhitespace).reverse.dropWhile
      Char.isWhitespace).reverse⟩

/-- `results.get(key, default)` for a float slot of the external results dict. -/
def enGetNum (d : Dict) (k : String) (dflt : ℚ) : ℚ :=
  match d.lookup k with
  | some (.num q) => q
  | _ => dflt

/-- `results.get(key)` for an optional float slot (missing → `None`). -/
def enGetOptNum (d : Dict) (k : String) : Option ℚ :=
  match d.lookup k with
  | some (.num q) => some q
  | _ => none

/-- `server.get(key)` for an optional string slot (missing → `None`). -/
def enGetOptStr (d : Dict) (k : String) : Option String :=
  match d.lookup k with
  | some (.str s) => some s
  | _ => none

/-- `results.get("client", {}).get("isp")` from `_run_blocking` line 94. -/
def enGetIsp (d : Dict) : Option String :=
  match d.lookup "client" with
  | some (.dict c) => enGetOptStr c "isp"
  | _ => none

/-- Synthesis of `server_name` in `_run_blocking` lines 89-93: take the server
dict (`results.get("server", {})`); for a truthy (non-empty) one, join the
truthy elements of `[name, country]` with `", "`, wrap the location in
parentheses after the sponsor (defaulting to `""`), and strip surrounding
whitespace. -/
def buildServerName (results : Dict) : Option String :=
  let server : Dict :=
    match results.lookup "server" with
    | some (.dict d) => d
    | _ => []
  if server.isEmpty then none
  else
    let location := String.intercalate ", "
      (pyFilterTruthy [enGetOptStr server "name", enGetOptStr server "country"])
    some (pyStrip ((enGetOptStr server "sponsor").getD "" ++ " (" ++ location ++ ")"))

/-- Python `max` over a non-empty float list (first element, then pairwise
max); the `[]` case is unreachable in the program (guarded by the `and`). -/
def pyMax : List ℚ → ℚ
  | [] => 0
  | v :: vs => vs.foldl max v

/-- The result-construction tail of `SpeedtestEngine._run_blocking`
(lines 82-111 of `src/core/speedtest_engine.py`): extract the aggregate
figures from `st.results.dict()`, synthesise the server name, apply the
max-sample fallback when an aggregate is non-positive, and build the Result
Record with the current instant. -/
def finalizeResult (results : Dict) (download_speeds upload_speeds : List ℚ)
    (now : ℕ) : SpeedResult :=
  let ping_ms := enGetNum results "ping" 0
  let jitter_ms := enGetOptNum results "jitter"
  let download_mbps := enGetNum results "download" 0 / 1000000
  let upload_mbps := enGetNum results "upload" 0 / 1000000
  let packet_loss := enGetOptNum results "packetLoss"
  let server_name := buildServerName results
  let isp := enGetIsp results
  let download_mbps :=
    if download_mbps ≤ 0 ∧ download_speeds ≠ [] then pyMax download_speeds
    else download_mbps
  let upload_mbps :=
    if upload_mbps ≤ 0 ∧ upload_speeds ≠ [] then pyMax upload_speeds
    else upload_mbps
  { ping_ms := ping_ms, jitter_ms := jitter_ms, download_mbps := download_mbps,
    upload_mbps := upload_mbps, packet_loss := packet_loss,
    server_name := server_name, isp := isp, timestamp := now }

/-- A progress event emitted by the engine: a stage tag plus optional speed
payload (the `pinging` event's server detail is irrelevant to the verified
properties). -/
inductive Event where
  | finding_server
  | pinging
  | downloading (mbps : ℚ)
  | uploading (mbps : ℚ)
  | finalizing
deriving DecidableEq, Repr

/-- `download_callback` in `_run_blocking` lines 57-62, as a step on the
accumulated `(download_speeds, emitted events)` state: a sample with
`elapsed <= 0` is discarded before the division; otherwise
`mbps = bytes_recv * 8 / 1_000_000 / elapsed` is recorded and emitted. -/
def downloadStep (acc : List ℚ × List Event)
    (bytes_recv _download_bytes elapsed : ℚ) : List ℚ × List Event :=
  if elapsed ≤ 0 then acc
  else
    let mbps := bytes_recv * 8 / 1000000 / elapsed
    (acc.1 ++ [mbps], acc.2 ++ [Event.downloading mbps])

/-- `upload_callback` in `_run_blocking` lines 64-69, analogous to
`downloadStep`. -/
def uploadStep (acc : List ℚ × List Event)
    (bytes_sent _upload_bytes elapsed : ℚ) : List ℚ × List Event :=
  if elapsed ≤ 0 then acc
  else
    let mbps := bytes_sent * 8 / 1000000 / elapsed
    (acc.1 ++ [mbps], acc.2 ++ [Event.uploading mbps])

/-- The opaque external measurement workload: the `(bytes, total, elapsed)`
triples it feeds to the download and upload callbacks, and the final
`st.results.dict()`. -/
structure Workload where
  downloadSamples : List (ℚ × ℚ × ℚ)
  uploadSamples : List (ℚ × ℚ × ℚ)
  results : Dict

/-- `SpeedtestEngine._run_blocking` (lines 35-111) as a function of the
cancellation flag's value at each of the four stage-boundary checks
(`checks i` is the value of `self._cancelled` read when boundary `i` is
reached: after server discovery, after ping, after download, after upload),
the external workload `w`, and the completion instant.  Returns the Result
Record and emitted event trace, or the raised `asyncio.CancelledError`
(modelled as `Except.error ()`). -/
def run_blocking (checks : Fin 4 → Bool) (w : Workload) (now : ℕ) :
    Except Unit (SpeedResult × List Event) :=
  if checks 0 then .error () else
  if checks 1 then .error () else
  let dl := w.downloadSamples.foldl
    (fun acc s => downloadStep acc s.1 s.2.1 s.2.2)
    ([], [.finding_server, .pinging, .downloading 0])
  if checks 2 then .error () else
  let ul := w.uploadSamples.foldl
    (fun acc s => uploadStep acc s.1 s.2.1 s.2.2)
    ([], dl.2 ++ [.uploading 0])
  if checks 3 then .error () else
  .ok (finalizeResult w.results dl.1 ul.1 now, ul.2 ++ [.finalizing])

lemma stripList_eq_self (a : Char) (m : List Char) (b : Char)
    (ha : a.isWhitespace = false) (hb : b.isWhitespace = false) :
    (((a :: (m ++ [b])).dropWhile Char.isWhitespace).reverse.dropWhile
        Char.isWhitespace).reverse = a :: (m ++ [b]) := by
  rw [List.dropWhile_cons_of_neg (by simp [ha])]
  rw [show (a :: (m ++ [b])).reverse = b :: (m.reverse ++ [a]) by simp]
  rw [List.dropWhile_cons_of_neg (by simp [hb])]
  simp

lemma pyStrip_wrapped (s L : String) (a : Char) (t : List Char)
    (hdat : s.data = a :: t) (hws : a.isWhitespace = false) :
    pyStrip (s ++ " (" ++ L ++ ")") = s ++ " (" ++ L ++ ")" := by
  have hd : (s ++ " (" ++ L ++ ")").data
      = a :: ((t ++ ' ' :: '(' :: L.data) ++ [')']) := by
    simp [String.data_append, hdat]
  unfold pyStrip
  rw [hd, stripList_eq_self a _ ')' hws (by decide)]
  exact String.ext hd.symm

lemma pyStrip_no_sponsor (L : String) :
    pyStrip ("" ++ " (" ++ L ++ ")") = "(" ++ L ++ ")" := by
  have hd : ("" ++ " (" ++ L ++ ")").data
      = ' ' :: ('(' :: (L.data ++ [')'])) := by
    simp [String.data_append]
  have hd2 : ("(" ++ L ++ ")").data = '(' :: (L.data ++ [')']) := by
    simp [String.data_append]
  unfold pyStrip
  rw [hd, List.dropWhile_cons_of_pos (by decide),
    stripList_eq_self '(' L.data ')' (by decide) (by decide)]
  exact String.ext hd2.symm

/-- The workload's server record with the given present components (`name`
holds the city in speedtest-cli's server dict). -/
def serverDict (sponsor city country : Option String) : Dict :=
  (match sponsor with | some s => [("sponsor", PyVal.str s)] | none => [])
  ++ (match city with | some s => [("name", PyVal.str s)] | none => [])
  ++ (match country with | some s => [("country", PyVal.str s)] | none => [])

/-- Claim C8's expected server-name shape, as amended: the comma is omitted
when exactly one of city/country is present; when both are absent the name
keeps empty parentheses after the sponsor (`"{sponsor} ()"`); when the
sponsor is absent the leading space is stripped; when all three components
are absent no name is synthesised. -/
def serverNameSpec (sponsor city country : Option String) : Option String :=
  match sponsor, city, country with
  | none, none, none => none
  | _, _, _ =>
    let location := String.intercalate ", " ([city, country].filterMap id)
    match sponsor with
    | some s => some (s ++ " (" ++ location ++ ")")
    | none => some ("(" ++ location ++ ")")

/-- C8 counterexample: with sponsor `"S"` present and both city and country
absent, the synthesised server name is `"S ()"` — the empty parentheses are
not collapsed, contradicting the claim that no empty parentheses appear when
city and country are missing. -/
theorem server_name_empty_parens_counterexample :
    buildServerName [("server", .dict [("sponsor", PyVal.str "S")])]
      = some "S ()"
    ∧ ∃ pre post, ("S ()").data = pre ++ '(' :: ')' :: post :=
  ⟨by decide, ⟨['S', ' '], [], by decide⟩⟩

/-- C8 as amended: for every present/absent combination of sponsor, city and
country — present components non-empty and the sponsor not starting with
whitespace — the synthesised name matches `serverNameSpec`: separators
collapse when exactly one of city/country is absent, empty parentheses remain
when both are absent, the leading space is stripped when the sponsor is
absent, and no name is made when all are absent. -/
theorem server_name_synthesis (sponsor city country : Option String)
    (hsp : ∀ s, sponsor = some s
      → ∃ a t, s.data = a :: t ∧ a.isWhitespace = false)
    (hci : ∀ s, city = some s → s ≠ "")
    (hco : ∀ s, country = some s → s ≠ "") :
    buildServerName [("server", .dict (serverDict sponsor city country))]
      = serverNameSpec sponsor city country := by
  rcases sponsor with _ | s
  · rcases city with _ | c
    · rcases country with _ | k
      · rfl
      · rw [show buildServerName
              [("server", .dict (serverDict none none (some k)))]
            = some (pyStrip ("" ++ " (" ++ String.intercalate ", "
                (pyFilterTruthy [none, some k]) ++ ")")) from rfl]
        rw [show pyFilterTruthy [none, some k] = [k] by
          simp [pyFilterTruthy, hco k rfl]]
        rw [pyStrip_no_sponsor]
        rfl
    · rcases country with _ | k
      · rw [show buildServerName
              [("server", .dict (serverDict none (some c) none))]
            = some (pyStrip ("" ++ " (" ++ String.intercalate ", "
                (pyFilterTruthy [some c, none]) ++ ")")) from rfl]
        rw [show pyFilterTruthy [some c, none] = [c] by
          simp [pyFilterTruthy, hci c rfl]]
        rw [pyStrip_no_sponsor]
        rfl
      · rw [show buildServerName
              [("server", .dict (serverDict none (some c) (some k)))]
            = some (pyStrip ("" ++ " (" ++ String.intercalate ", "
                (pyFilterTruthy [some c, some k]) ++ ")")) from rfl]
        rw [show pyFilterTruthy [some c, some k] = [c, k] by
          simp [pyFilterTruthy, hci c rfl, hco k rfl]]
        rw [pyStrip_no_sponsor]
        rfl
  · obtain ⟨a, t, hdat, hws⟩ := hsp s rfl
    rcases city with _ | c
    · rcases country with _ | k
      · rw [show buildServerName
              [("server", .dict (serverDict (some s) none none))]
            = some (pyStrip (s ++ " (" ++ String.intercalate ", "
                (pyFilterTruthy [none, none]) ++ ")")) from rfl]
        rw [show pyFilterTruthy [none, none] = ([] : List String) from rfl]
        rw [pyStrip_wrapped s (String.intercalate ", " []) a t hdat hws]
        rfl
      · rw [show buildServerName
              [("server", .dict (serverDict (some s) none (some k)))]
            = some (pyStrip (s ++ " (" ++ String.intercalate ", "
                (pyFilterTruthy [none, some k]) ++ ")")) from rfl]
        rw [show pyFilterTruthy [none, some k] = [k] by
          simp [pyFilterTruthy, hco k rfl]]
        rw [pyStrip_wrapped s (String.intercalate ", " [k]) a t hdat hws]
        rfl
    · rcases country with _ | k
      · rw [show buildServerName
              [("server", .dict (serverDict (some s) (some c) none))]
            = some (pyStrip (s ++ " (" ++ String.intercalate ", "
                (pyFilterTruthy [some c, none]) ++ ")")) from rfl]
        rw [show pyFilterTruthy [some c, none] = [c] by
          simp [pyFilterTruthy, hci c rfl]]
        rw [pyStrip_wrapped s (String.intercalate ", " [c]) a t hdat hws]
        rfl
      · rw [show buildServerName
              [("server", .dict (serverDict (some s) (some c) (some k)))]
            = some (pyStrip (s ++ " (" ++ String.intercalate ", "
                (pyFilterTruthy [some c, some k]) ++ ")")) from rfl]
        rw [show pyFilterTruthy [some c, some k] = [c, k] by
          simp [pyFilterTruthy, hci c rfl, hco k rfl]]
        rw [pyStrip_wrapped s (String.intercalate ", " [c, k]) a t hdat hws]
        rfl

/-- Witness for the amended C8: sponsor `"Sp"`, city `"City"`, country absent
synthesises `"Sp (City)"` — one separator collapsed, no dangling comma. -/
theorem server_name_synthesis_witness :
    buildServerName [("server", .dict (serverDict (some "Sp") (some "City") none))]
      = serverNameSpec (some "Sp") (some "City") none
    ∧ serverNameSpec (some "Sp") (some "City") none = some "Sp (City)" := by
  constructor
  · refine server_name_synthesis (some "Sp") (some "City") none ?_ ?_ ?_
    · intro s hs
      rw [Option.some_inj] at hs
      subst hs
      exact ⟨'S', ['p'], rfl, by decide⟩
    · intro s hs
      rw [Option.some_inj] at hs
      subst hs
      decide
    · intro s hs
      exact absurd hs (by simp)
  · decide

/-- C7.  If the aggregate download (resp. upload) figure extracted from the
workload's results is ≤ 0 while instantaneous samples were observed in that
phase, the Result Record's `download_mbps` (resp. `upload_mbps`) is the
maximum observed sample. -/
theorem aggregate_fallback_to_max_sample (results : Dict)
    (dls uls : List ℚ) (now : ℕ) :
    (enGetNum results "download" 0 / 1000000 ≤ 0 → dls ≠ [] →
      (finalizeResult results dls uls now).download_mbps = pyMax dls)
    ∧ (enGetNum results "upload" 0 / 1000000 ≤ 0 → uls ≠ [] →
      (finalizeResult results dls uls now).upload_mbps = pyMax uls) := by
  constructor
  · intro hle hne
    simp [finalizeResult, hle, hne]
  · intro hle hne
    simp [finalizeResult, hle, hne]

/-- Witness for C7: a zero download aggregate with observed samples
`[50, 80]` falls back to the maximum sample 80. -/
theorem aggregate_fallback_to_max_sample_witness :
    enGetNum [("download", PyVal.num 0)] "download" 0 / 1000000 ≤ 0
    ∧ ([50, 80] : List ℚ) ≠ []
    ∧ (finalizeResult [("download", PyVal.num 0)] [50, 80] [7] 0).download_mbps
        = 80 := by
  refine ⟨by norm_num [enGetNum, List.lookup], by decide, ?_⟩
  have h := (aggregate_fallback_to_max_sample [("download", PyVal.num 0)]
    [50, 80] [7] 0).1 (by norm_num [enGetNum, List.lookup]) (by decide)
  rw [h]
  norm_num [pyMax]

/-- C9.  Cancellation and sample hygiene in `_run_blocking`: if the
cancellation flag is set when any of the four stage boundaries is reached,
the run aborts with the cancellation signal and never returns a Result
Record; and a callback sample with `elapsed <= 0` is discarded before the
division, so the speed lists only gain samples with a positive divisor. -/
theorem cancelled_run_aborts_and_nonpositive_elapsed_discarded :
    (∀ (checks : Fin 4 → Bool) (w : Workload) (now : ℕ),
        (∃ i, checks i = true) → run_blocking checks w now = .error ())
    ∧ (∀ (acc : List ℚ × List Event) (b t el : ℚ), el ≤ 0
        → downloadStep acc b t el = acc)
    ∧ (∀ (acc : List ℚ × List Event) (b t el : ℚ), el ≤ 0
        → uploadStep acc b t el = acc) := by
  refine ⟨?_, ?_, ?_⟩
  · rintro checks w now ⟨i, hi⟩
    by_cases h0 : checks 0 = true
    · simp [run_blocking, h0]
    · by_cases h1 : checks 1 = true
      · simp [run_blocking, h0, h1]
      · by_cases h2 : checks 2 = true
        · simp [run_blocking, h0, h1, h2]
        · by_cases h3 : checks 3 = true
          · simp [run_blocking, h0, h1, h2, h3]
          · exfalso
            fin_cases i <;> simp_all
  · intro acc b t el h
    simp [downloadStep, h]
  · intro acc b t el h
    simp [uploadStep, h]

/-- Witness for C9: a run with the flag set at every boundary aborts on the
empty workload, and a zero-elapsed sample leaves the callback state
unchanged. -/
theorem cancelled_run_aborts_witness :
    ((fun _ : Fin 4 => true) 0 = true)
    ∧ run_blocking (fun _ => true) ⟨[], [], []⟩ 0 = .error ()
    ∧ (0 : ℚ) ≤ 0
    ∧ downloadStep ([], []) 5 5 0 = ([], [])
    ∧ uploadStep ([], []) 5 5 0 = ([], []) :=
  ⟨rfl,
   cancelled_run_aborts_and_nonpositive_elapsed_discarded.1
     (fun _ => true) ⟨[], [], []⟩ 0 ⟨0, rfl⟩,
   le_refl 0,
   cancelled_run_aborts_and_nonpositive_elapsed_discarded.2.1
     ([], []) 5 5 0 (le_refl 0),
   cancelled_run_aborts_and_nonpositive_elapsed_discarded.2.2
     ([], []) 5 5 0 (le_refl 0)⟩


/-- The stage tag string an engine event is emitted with. -/
def eventStatus : Event → String
  | .finding_server => "finding_server"
  | .pinging => "pinging"
  | .downloading _ => "downloading"
  | .uploading _ => "uploading"
  | .finalizing => "finalizing"

/-- The `mbps` payload carried by an engine event, when present. -/
def eventMbps : Event → Option ℚ
  | .downloading m => some m
  | .uploading m => some m
  | _ => none

/-- `StatusMessage` from `src/ui/cli_dashboard.py` lines 31-35.  The stored
speed is always a float: `__init__` performs `self.speed = speed or 0.0`. -/
structure StatusMessage where
  status : String
  speed : ℚ
deriving Repr

/-- The `StatusMessage.__init__` coercion `speed or 0.0` (Python `or` treats
`None` and `0.0` as falsy). -/
def mkStatusMessage (status : String) (speed : Option ℚ) : StatusMessage :=
  { status := status,
    speed := match speed with
      | none => 0
      | some s => if s = 0 then 0 else s }

/-- The engine-to-dashboard callback in `Dashboard._run_test` lines 172-174:
`speed = payload.get("mbps", 0.0)`, then a `StatusMessage` is posted. -/
def callbackMessage (e : Event) : StatusMessage :=
  mkStatusMessage (eventStatus e) (some ((eventMbps e).getD 0))

/-- The Dashboard's reactive state fields (`src/ui/cli_dashboard.py` lines
70-73) together with its `AnalyzerBars` instance. -/
structure DashState where
  status_text : String
  current_speed : ℚ
  result : Option SpeedResult
  running : Bool
  analyzer : AnalyzerBars

/-- The `status_map` literal in `Dashboard.on_status_message` lines 195-201. -/
def status_map : List (String × String) :=
  [("finding_server", "FINDING SERVER"),
   ("pinging", "PINGING"),
   ("downloading", "DOWNLOADING"),
   ("uploading", "UPLOADING"),
   ("finalizing", "FINALIZING")]

/-- `Dashboard.on_status_message` lines 194-205: map the tag to a status
label (unknown tags pass through uppercased), then update `current_speed` and
push the speed into the analyzer.  The source guard
`if message.speed is not None:` is vacuously true — `StatusMessage.__init__`
coerces a missing speed to `0.0` — so the update is unconditional. -/
def on_status_message (st : DashState) (message : StatusMessage) : DashState :=
  { st with
    status_text := (status_map.lookup message.status).getD message.status.toUpper,
    current_speed := message.speed,
    analyzer := st.analyzer.push message.speed }

/-- The successful-completion tail of `Dashboard._run_test` lines 189-191:
store the record, clear `running`, set status `COMPLETE` (the subsequent
`save_result` call persists to the History Store). -/
def onRunComplete (st : DashState) (result : SpeedResult) : DashState :=
  { st with result := some result, running := false, status_text := "COMPLETE" }

/-- The Dashboard state right after the `_run_test` preamble (lines 166-170):
running, result cleared, zero speed, `FINDING SERVER`, analyzer of the
capacity 50 the Dashboard constructs. -/
def startState : DashState :=
  { status_text := "FINDING SERVER", current_speed := 0, result := none,
    running := true, analyzer := AnalyzerBars.init 50 }

/-- The engine event sequence named by claim C1. -/
def claimEvents : List Event :=
  [.finding_server, .pinging, .downloading 50, .downloading 80,
   .uploading 20, .finalizing]

/-- The successful completion record named by claim C1
(`download_mbps = 95.0`, `upload_mbps = 22.0`). -/
def claimResult : SpeedResult :=
  { ping_ms := 10, jitter_ms := none, download_mbps := 95, upload_mbps := 22,
    packet_loss := none, server_name := none, isp := none, timestamp := 0 }

/-- The Dashboard state after folding claim C1's events through
`on_status_message` and applying the successful completion. -/
def c1FinalState : DashState :=
  onRunComplete
    ((claimEvents.map callbackMessage).foldl on_status_message startState)
    claimResult

/-- C1 evaluated at the claim's event sequence: the final status is
`COMPLETE` as claimed, but — because `StatusMessage.__init__` coerces a
missing speed to `0.0`, leaving the `is not None` guard in
`on_status_message` vacuous — every event pushes its coerced speed:
`current_speed` ends at `0` (set by the payload-less `finalizing` event) and
the Gauge Sample Buffer holds `[0, 0, 50, 80, 20, 0]`, not the claimed
`[50, 80, 20]` with `current_speed = 20`. -/
theorem dashboard_fold_pushes_every_event :
    c1FinalState.status_text = "COMPLETE"
    ∧ c1FinalState.current_speed = 0
    ∧ c1FinalState.analyzer.samples = [0, 0, 50, 80, 20, 0]
    ∧ c1FinalState.analyzer.samples ≠ [50, 80, 20]
    ∧ c1FinalState.current_speed ≠ 20 := by
  refine ⟨rfl, rfl, by decide, by decide, by decide⟩
